import Mathlib

/-!
Shallow embedding of `src/bridge-commands.cpp` (class `BridgeCommands` and its
nested command classes).

The C++ program is a stack machine driven by an external timer loop:

* `BridgeCommands` holds a stack `m_command_stack` of shared pointers to
  `BridgeCommandCollection` objects (`BridgeCommandRepeat` is a subclass of
  `BridgeCommandCollection`), a shared result slot `m_return_value`, and a
  handle to the event loop.
* Authoring (`add_execute`, `add_repeat_start`, `add_repeat_end`, `add_delay`,
  `add_wait_exit`) appends command nodes to the queue of the collection at the
  top of the stack; repeat brackets push/pop the stack.
* `start_bridge` / `queue_next_command` arm a recurring timer callback: each
  invocation executes one step of the top frame and returns either a re-arm
  delay or the sentinel `kEventLoopTimerDone` (stop).

Modelling decisions:
* Collection/repeat objects live in a heap addressed by `Nat` ids, represented
  by the function-valued fields `queues`, `isRepeatObj`, `repeatTimes`,
  `repeatDelays` of the state.  This mirrors the `shared_ptr` object identity
  of the C++: the queue copy made by `BridgeCommandRepeat::execute` copies a
  `std::queue` of shared pointers, so the copied queue shares the pointed-to
  command objects (in particular a nested repeat's mutable counter) with the
  original.
* Callbacks passed to `add_execute` are opaque external functions returning an
  int.  They are identified by a `Nat` label; an environment `env : Nat → Int`
  gives the value returned by the k-th callback invocation of a run, and the
  state records the labels of the invoked callbacks in invocation order
  (`trace`) together with the invocation counter (`callCount`).  This is ghost
  instrumentation used only to observe the run.
* Machine integers (`int`, `int64_t`, microsecond counts) are modelled as
  `Int` for the repeat counter (which is compared against 0 and decremented)
  and `Nat` for delays; no overflow is relevant at the studied ranges.
* The timer-callback result `int64_t` is either a re-arm delay or the sentinel
  `kEventLoopTimerDone` from the missing header; it is modelled as an
  inductive `TimerResult`.
-/

/-- Pointwise update of a heap function at one id. -/
def updFn {α : Type} (f : Nat → α) (i : Nat) (a : α) : Nat → α :=
  fun j => if j = i then a else f j

/-- Value returned by one invocation of the timer callback registered by
`queue_next_command`: either a re-arm delay in microseconds, or the sentinel
`kEventLoopTimerDone` (declared in the missing header `bridge-commands.hpp`)
telling the event loop to unregister the timer. -/
inductive TimerResult where
  | continueAfter (usecs : Nat)
  | kEventLoopTimerDone
  deriving DecidableEq, Repr

/-- Exception type: `BridgeUnmatchedLoopException` thrown by `start_bridge`
and `add_repeat_end`. -/
inductive BridgeError where
  | unmatchedLoop
  deriving DecidableEq, Repr

/-- Command nodes stored in collection queues.  `execute cb` is a
`BridgeCommandExecute` whose callback is labelled `cb`; `delay usecs` is a
`BridgeCommandDelay`; `repRef obj` is a shared pointer to the
`BridgeCommandRepeat` heap object `obj` (the only collection-type objects ever
added to a queue as commands are the repeat objects created by
`add_repeat_start`); `waitExit` is a `BridgeCommandWaitExit`. -/
inductive BridgeCommand where
  | execute (cb : Nat)
  | delay (usecs : Nat)
  | repRef (obj : Nat)
  | waitExit
  deriving DecidableEq, Repr

/-- State of a `BridgeCommands` object together with its heap of
collection/repeat objects and the ghost observation fields.

* `queues i` — `m_command_queue` of collection object `i`;
* `isRepeatObj i` — dynamic type of object `i` (`BridgeCommandRepeat` vs plain
  `BridgeCommandCollection`), deciding virtual dispatch of `execute`;
* `repeatTimes i` — `m_repeat_times` of repeat object `i`;
* `repeatDelays i` — `m_delay` (microsecond count) of repeat object `i`;
* `commandStack` — `m_command_stack`, head = top, elements are object ids;
* `nextObj` — allocator: ids `≥ nextObj` are unallocated;
* `returnValue` — `m_return_value`;
* `callCount`, `trace` — ghost: number of callback invocations so far, and the
  labels of invoked callbacks in order;
* `exitHandlers` — number of pending one-shot `on_exit` handlers registered on
  the lifecycle collaborator by `BridgeCommandWaitExit::execute`. -/
structure BridgeCommands where
  queues : Nat → List BridgeCommand
  isRepeatObj : Nat → Bool
  repeatTimes : Nat → Int
  repeatDelays : Nat → Nat
  commandStack : List Nat
  nextObj : Nat
  returnValue : Int
  callCount : Nat
  trace : List Nat
  exitHandlers : Nat

/-- Modelled from the spec: the `BridgeCommands` constructor is in the missing
header `bridge-commands.hpp`; per the spec, "The root Collection is created
once at orchestrator construction" and the stack then holds exactly that root.
The root is object `0`; unallocated heap slots carry default values. -/
def initBridgeCommands : BridgeCommands :=
  { queues := fun _ => []
    isRepeatObj := fun _ => false
    repeatTimes := fun _ => 0
    repeatDelays := fun _ => 0
    commandStack := [0]
    nextObj := 1
    returnValue := 0
    callCount := 0
    trace := []
    exitHandlers := 0 }

/-- Embeds `BridgeCommandCollection::add_command`, called through
`m_command_stack.top()->add_command(...)`: append the node to the queue of the
object at the top of the stack.  Calling `top()` on an empty stack is
undefined behaviour in the source and unreachable during authoring (the stack
never drops below the root); it is modelled as a no-op. -/
def add_command (c : BridgeCommand) (bc : BridgeCommands) : BridgeCommands :=
  match bc.commandStack with
  | [] => bc
  | t :: _ => { bc with queues := updFn bc.queues t (bc.queues t ++ [c]) }

/-- Embeds `BridgeCommands::add_execute`. -/
def add_execute (cb : Nat) (bc : BridgeCommands) : BridgeCommands :=
  add_command (BridgeCommand.execute cb) bc

/-- Embeds `BridgeCommands::add_delay`. -/
def add_delay (usecs : Nat) (bc : BridgeCommands) : BridgeCommands :=
  add_command (BridgeCommand.delay usecs) bc

/-- Embeds `BridgeCommands::add_wait_exit`. -/
def add_wait_exit (bc : BridgeCommands) : BridgeCommands :=
  add_command BridgeCommand.waitExit bc

/-- Embeds `BridgeCommands::add_repeat_start`: construct a fresh
`BridgeCommandRepeat` (empty queue, the given delay and count), append it to
the collection at the top of the stack, then push it onto the stack. -/
def add_repeat_start (usecs : Nat) (count : Int) (bc : BridgeCommands) :
    BridgeCommands :=
  let i := bc.nextObj
  let bc1 : BridgeCommands :=
    { bc with
        queues := updFn bc.queues i []
        isRepeatObj := updFn bc.isRepeatObj i true
        repeatTimes := updFn bc.repeatTimes i count
        repeatDelays := updFn bc.repeatDelays i usecs
        nextObj := i + 1 }
  let bc2 := add_command (BridgeCommand.repRef i) bc1
  { bc2 with commandStack := i :: bc2.commandStack }

/-- Embeds `BridgeCommands::add_repeat_end`: throw
`BridgeUnmatchedLoopException` if the stack size is `≤ 1`, else pop. -/
def add_repeat_end (bc : BridgeCommands) : Except BridgeError BridgeCommands :=
  if bc.commandStack.length ≤ 1 then Except.error BridgeError.unmatchedLoop
  else Except.ok { bc with commandStack := bc.commandStack.tail }

/-- Embeds `BridgeCommands::BridgeCommandExecute::execute`: invoke the
callback (passing the orchestrator handle), store the raw returned value into
`m_return_value`, and return `0` (continue immediately) if it is non-zero,
else `kEventLoopTimerDone`.  The ghost fields record the invocation. -/
def BridgeCommandExecute.execute (env : Nat → Int) (cb : Nat)
    (bc : BridgeCommands) : BridgeCommands × TimerResult :=
  let v := env bc.callCount
  ({ bc with
      returnValue := v
      callCount := bc.callCount + 1
      trace := bc.trace ++ [cb] },
   if v = 0 then TimerResult.kEventLoopTimerDone else TimerResult.continueAfter 0)

/-- Modelled from the spec: the body of `BridgeCommandDelay::execute` is in
the missing header `bridge-commands.hpp`; per the spec, "DelayStep: no side
effect; always ContinueAfter(configured duration)". -/
def BridgeCommandDelay.execute (usecs : Nat) (bc : BridgeCommands) :
    BridgeCommands × TimerResult :=
  (bc, TimerResult.continueAfter usecs)

/-- Embeds `BridgeCommands::BridgeCommandWaitExit::execute`: register on the
lifecycle collaborator a one-shot `on_exit` handler whose body is
`bc->queue_next_command()` (see `ioloopFireExit`), and return
`kEventLoopTimerDone`. -/
def BridgeCommandWaitExit.execute (bc : BridgeCommands) :
    BridgeCommands × TimerResult :=
  ({ bc with exitHandlers := bc.exitHandlers + 1 }, TimerResult.kEventLoopTimerDone)

/-- Embeds `BridgeCommands::BridgeCommandRepeat::execute` on repeat object
`r`: compare the pre-decrement value of `m_repeat_times` with 0 and decrement
it; if the old value is `≤ 0` pop the top of `m_command_stack`, otherwise
allocate a fresh plain `BridgeCommandCollection` whose queue is a copy of this
repeat's queue and push it; in both branches return `m_delay.count()`. -/
def BridgeCommandRepeat.execute (r : Nat) (bc : BridgeCommands) :
    BridgeCommands × TimerResult :=
  let t := bc.repeatTimes r
  let bc1 := { bc with repeatTimes := updFn bc.repeatTimes r (t - 1) }
  if t ≤ 0 then
    ({ bc1 with commandStack := bc1.commandStack.tail },
     TimerResult.continueAfter (bc.repeatDelays r))
  else
    let j := bc1.nextObj
    ({ bc1 with
        queues := updFn bc1.queues j (bc1.queues r)
        isRepeatObj := updFn bc1.isRepeatObj j false
        commandStack := j :: bc1.commandStack
        nextObj := j + 1 },
     TimerResult.continueAfter (bc.repeatDelays r))

/-- Embeds the virtual call `command->execute(bc)` on a command node dequeued
from a collection.  A `repRef` dispatches to `BridgeCommandRepeat::execute`:
the only collection-type objects ever stored in a queue as commands are the
repeat objects created by `add_repeat_start`. -/
def BridgeCommand.dispatch (env : Nat → Int) (c : BridgeCommand)
    (bc : BridgeCommands) : BridgeCommands × TimerResult :=
  match c with
  | BridgeCommand.execute cb => BridgeCommandExecute.execute env cb bc
  | BridgeCommand.delay usecs => BridgeCommandDelay.execute usecs bc
  | BridgeCommand.repRef r => BridgeCommandRepeat.execute r bc
  | BridgeCommand.waitExit => BridgeCommandWaitExit.execute bc

/-- Embeds `BridgeCommands::BridgeCommandCollection::execute` on collection
object `t`: if the queue of `t` is empty, pop the top of `m_command_stack` and
return `0`; otherwise dequeue the front command of `t` and execute it. -/
def BridgeCommandCollection.execute (env : Nat → Int) (t : Nat)
    (bc : BridgeCommands) : BridgeCommands × TimerResult :=
  match bc.queues t with
  | [] =>
    ({ bc with commandStack := bc.commandStack.tail }, TimerResult.continueAfter 0)
  | c :: rest =>
    BridgeCommand.dispatch env c { bc with queues := updFn bc.queues t rest }

/-- Embeds the virtual call `bridge_command_collection->execute(...)` on the
stack object `t`: dispatch on the object's dynamic type. -/
def objectExecute (env : Nat → Int) (t : Nat) (bc : BridgeCommands) :
    BridgeCommands × TimerResult :=
  if bc.isRepeatObj t then BridgeCommandRepeat.execute t bc
  else BridgeCommandCollection.execute env t bc

/-- Embeds the body of the timer callback registered by
`BridgeCommands::queue_next_command`: if `m_command_stack` is empty return
`kEventLoopTimerDone`, else execute one step of the top object. -/
def timerCallback (env : Nat → Int) (bc : BridgeCommands) :
    BridgeCommands × TimerResult :=
  match bc.commandStack with
  | [] => (bc, TimerResult.kEventLoopTimerDone)
  | t :: _ => objectExecute env t bc

/-- Embeds the recurring-timer behaviour of the external event loop driving
the callback of `queue_next_command`: a `continueAfter` result re-arms the
timer and the callback fires again, `kEventLoopTimerDone` unregisters it.
`fuel` bounds the number of timer firings; the boolean of the result is `true`
when the timer was unregistered (the run halted by itself) and `false` when
the fuel ran out first. -/
def runLoop (env : Nat → Int) : Nat → BridgeCommands → BridgeCommands × Bool
  | 0, bc => (bc, false)
  | fuel + 1, bc =>
    let r := timerCallback env bc
    match r.2 with
    | TimerResult.kEventLoopTimerDone => (r.1, true)
    | TimerResult.continueAfter _ => runLoop env fuel r.1

/-- Initial delay passed by `queue_next_command` to
`m_bridge_loop->getTimerEvent(..., 0)`. -/
def getTimerEventInitialDelay : Nat := 0

/-- Embeds `BridgeCommands::queue_next_command`: register the timer callback
with initial delay `getTimerEventInitialDelay` and start the loop, which then
pumps the callback until it returns `kEventLoopTimerDone` (or fuel runs
out). -/
def queue_next_command (env : Nat → Int) (fuel : Nat) (bc : BridgeCommands) :
    BridgeCommands × Bool :=
  runLoop env fuel bc

/-- Embeds `BridgeCommands::start_bridge`: throw
`BridgeUnmatchedLoopException` unless `m_command_stack.size() == 1`, else arm
the driver via `queue_next_command` and run. -/
def start_bridge (env : Nat → Int) (fuel : Nat) (bc : BridgeCommands) :
    Except BridgeError (BridgeCommands × Bool) :=
  if bc.commandStack.length ≠ 1 then Except.error BridgeError.unmatchedLoop
  else Except.ok (queue_next_command env fuel bc)

/-- Embeds the lifecycle collaborator firing one of the one-shot `on_exit`
handlers registered by `BridgeCommandWaitExit::execute`: the handler body from
the source is `bc->queue_next_command()`, so firing consumes the registration
and re-enters the driver. -/
def ioloopFireExit (env : Nat → Int) (fuel : Nat) (bc : BridgeCommands) :
    BridgeCommands × Bool :=
  if bc.exitHandlers = 0 then (bc, false)
  else queue_next_command env fuel { bc with exitHandlers := bc.exitHandlers - 1 }

/-- Environment in which every callback invocation returns 1 (true). -/
def envAllTrue : Nat → Int := fun _ => 1

/-- Environment in which every callback invocation returns 0 (false). -/
def envAllZero : Nat → Int := fun _ => 0

/-- Claim C1 scenario, authored through the builder API: program
`[Execute(A=0), RepeatStart(delay=1000, count=2) with body Delay(500),
Execute(B=1), RepeatEnd, Execute(C=2)]`. -/
def c1Authoring : Except BridgeError BridgeCommands :=
  (add_repeat_end
      (add_execute 1 (add_delay 500
        (add_repeat_start 1000 2 (add_execute 0 initBridgeCommands))))).map
    (fun bc => add_execute 2 bc)

/-- Outcome of running the C1 scenario with all callbacks returning true. -/
def c1Outcome : Except BridgeError (BridgeCommands × Bool) :=
  c1Authoring.bind (fun bc => start_bridge envAllTrue 20 bc)

/-- Observed callback invocation order of the C1 scenario (`none` would mean
an authoring or start error), paired with whether the run halted by itself. -/
def c1Observed : Option (List Nat × Bool) :=
  (Except.toOption c1Outcome).map (fun p => (p.1.trace, p.2))

/-- Predicate on states: every object on the command stack is a plain
collection (not a repeat) with an allocated id.  This holds for every state
the driver can reach after a successful `start_bridge` (the stack is then the
root collection alone, and execution only ever pushes freshly allocated plain
collections) and is preserved by every timer tick. -/
def NoRepeatOnStack (bc : BridgeCommands) : Prop :=
  ∀ t ∈ bc.commandStack, bc.isRepeatObj t = false ∧ t < bc.nextObj

/-- Claim C2 scenario, authored through the builder API: an outer repeat
(object 1, count 2) whose body is a single nested repeat (object 2, count 2,
empty body). -/
def c2Authoring : Except BridgeError BridgeCommands :=
  (add_repeat_end (add_repeat_start 0 2 (add_repeat_start 0 2 initBridgeCommands))).bind
    add_repeat_end

/-- Outcome of running the C2 scenario. -/
def c2Outcome : Except BridgeError (BridgeCommands × Bool) :=
  c2Authoring.bind (fun bc => start_bridge envAllTrue 20 bc)

/-- Counter of the nested repeat (object 2) and body template of the outer
repeat (object 1) as authored, before the run. -/
def c2Before : Option (Int × List BridgeCommand) :=
  (Except.toOption c2Authoring).map (fun bc => (bc.repeatTimes 2, bc.queues 1))

/-- Counter of the nested repeat (object 2) and body template of the outer
repeat (object 1) after the run. -/
def c2After : Option (Int × List BridgeCommand) :=
  (Except.toOption c2Outcome).map (fun p => (p.1.repeatTimes 2, p.1.queues 1))

/-- Claim C4/C10 scenario, authored through the builder API: a repeat with
count 0 and empty body, followed by `Execute(5)` in the same (root) scope. -/
def c4Authoring : Except BridgeError BridgeCommands :=
  (add_repeat_end (add_repeat_start 0 0 initBridgeCommands)).map
    (fun bc => add_execute 5 bc)

/-- Outcome of running the C4/C10 scenario. -/
def c4Outcome : Except BridgeError (BridgeCommands × Bool) :=
  c4Authoring.bind (fun bc => start_bridge envAllTrue 20 bc)

/-- Observed trace, final stack and halt flag of the C4/C10 scenario. -/
def c4Observed : Option (List Nat × List Nat × Bool) :=
  (Except.toOption c4Outcome).map (fun p => (p.1.trace, p.1.commandStack, p.2))

/-- Two-step program `[Execute(7), Execute(8)]` on the root collection. -/
def c3ProgBC : BridgeCommands :=
  add_execute 8 (add_execute 7 initBridgeCommands)

/-- Concrete state used by witnesses: the root collection (object 0) holds
`[repRef 1, Execute(5)]` where object 1 is a repeat with the given count,
per-iteration delay 1000 and body `[Delay(3)]`. -/
def wRepeatBC (count : Int) : BridgeCommands :=
  { queues := updFn (updFn (fun _ => []) 0
      [BridgeCommand.repRef 1, BridgeCommand.execute 5]) 1 [BridgeCommand.delay 3]
    isRepeatObj := updFn (fun _ => false) 1 true
    repeatTimes := updFn (fun _ => 0) 1 count
    repeatDelays := updFn (fun _ => 0) 1 1000
    commandStack := [0]
    nextObj := 2
    returnValue := 0
    callCount := 0
    trace := []
    exitHandlers := 0 }

/-- Concrete state used by witnesses: the root collection (object 0) holds
`[WaitExit, Execute(9)]`. -/
def wWaitBC : BridgeCommands :=
  add_execute 9 (add_wait_exit initBridgeCommands)

/-- Concrete state used by witnesses: an empty command stack. -/
def wEmptyStackBC : BridgeCommands :=
  { initBridgeCommands with commandStack := [] }

/-- Concrete state used by witnesses: authoring state with one still-open
repeat block (stack of size 2). -/
def wOpenLoopBC : BridgeCommands :=
  add_repeat_start 0 1 initBridgeCommands

theorem updFn_self {α : Type} (f : Nat → α) (i : Nat) (a : α) : updFn f i a i = a := by
  simp [updFn]

theorem updFn_ne {α : Type} (f : Nat → α) {i j : Nat} (a : α) (h : j ≠ i) :
    updFn f i a j = f j := by
  simp [updFn, h]

/-- Claim C1: the spec asserts that a repeat block with count N ≥ 1 executes
its body exactly N times, and that the program `[Execute(A=0),
RepeatStart(1000, 2), Delay(500), Execute(B=1), RepeatEnd, Execute(C=2)]` with
all callbacks returning true yields observed order A, B, B, C, i.e.
`[0, 1, 1, 2]`.  The code executes the repeat body exactly once: the repeat
node is dequeued from its enclosing collection when first executed, is not
itself on the execution stack, and is never reached again, so the observed
order is A, B, C (`[0, 1, 2]`). -/
theorem c1_repeat_body_runs_once :
    c1Observed = some ([0, 1, 2], true) ∧
    c1Observed ≠ some ([0, 1, 1, 2], true) := by
  decide

/-- Claim C2 counterexample: in the C2 scenario the outer repeat (object 1)
has the authored body template `[repRef 2]` with nested repeat counter
`repeatTimes 2 = 2`; after running one iteration (the only one the code
performs), the template queue is unchanged but the counter of the nested
repeat reachable from the template has been decremented to 1 — state mutated
while running an iteration's collection leaked back into the frame's
template, because the iteration copy shares the command objects with the
template. -/
theorem c2_counterexample_nested_counter_leaks :
    c2Before = some (2, [BridgeCommand.repRef 2]) ∧
    c2After = some (1, [BridgeCommand.repRef 2]) := by
  decide

/-- Claim C4 counterexample: in the scenario `[RepeatStart(count = 0),
RepeatEnd, Execute(5)]`, the repeat's advance pops the enclosing root
collection (the repeat node itself is not on the stack), so `Execute(5)` never
runs: the observed trace is `[]` with the stack emptied, not `[5]` as it would
be if the advance popped the repeat frame itself and left the enclosing
collection in place. -/
theorem c4_counterexample_enclosing_collection_popped :
    c4Observed = some ([], [], true) ∧
    c4Observed ≠ some ([5], [], true) := by
  decide

/-- Claim C5: `start_bridge` throws `BridgeUnmatchedLoopException` exactly
when the stack does not hold exactly one frame (unclosed repeat blocks) and
otherwise arms the driver; `add_repeat_end` throws exactly when no loop is
open (stack size ≤ 1, i.e. the pop would drop the stack below depth 1) and
otherwise pops; in the failure cases the error is returned before any step
executes (no run is started, the state is not changed), and a successful
`add_repeat_end` never leaves the stack below depth 1. -/
theorem c5_unmatched_loop_errors :
    (∀ (env : Nat → Int) (fuel : Nat) (bc : BridgeCommands),
        bc.commandStack.length ≠ 1 →
        start_bridge env fuel bc = Except.error BridgeError.unmatchedLoop) ∧
    (∀ (env : Nat → Int) (fuel : Nat) (bc : BridgeCommands),
        bc.commandStack.length = 1 →
        start_bridge env fuel bc = Except.ok (queue_next_command env fuel bc)) ∧
    (∀ bc : BridgeCommands, bc.commandStack.length ≤ 1 →
        add_repeat_end bc = Except.error BridgeError.unmatchedLoop) ∧
    (∀ bc : BridgeCommands, 1 < bc.commandStack.length →
        add_repeat_end bc =
          Except.ok { bc with commandStack := bc.commandStack.tail }) ∧
    (∀ (bc bc' : BridgeCommands), add_repeat_end bc = Except.ok bc' →
        1 ≤ bc'.commandStack.length) := by
  refine ⟨?_, ?_, ?_, ?_, ?_⟩
  · intro env fuel bc h
    simp [start_bridge, h]
  · intro env fuel bc h
    simp [start_bridge, h]
  · intro bc h
    simp [add_repeat_end, h]
  · intro bc h
    simp [add_repeat_end, Nat.not_le.mpr h]
  · intro bc bc' h
    by_cases hl : bc.commandStack.length ≤ 1
    · simp [add_repeat_end, hl] at h
    · simp [add_repeat_end, hl] at h
      rw [← h]
      simp [List.length_tail]
      omega

/-- Witness for C5 at concrete inputs: `wOpenLoopBC` has an open repeat
(stack size 2), `initBridgeCommands` has none. -/
theorem c5_unmatched_loop_errors_witness :
    start_bridge envAllTrue 5 wOpenLoopBC = Except.error BridgeError.unmatchedLoop ∧
    start_bridge envAllTrue 5 initBridgeCommands =
      Except.ok (queue_next_command envAllTrue 5 initBridgeCommands) ∧
    add_repeat_end initBridgeCommands = Except.error BridgeError.unmatchedLoop ∧
    add_repeat_end wOpenLoopBC =
      Except.ok { wOpenLoopBC with commandStack := wOpenLoopBC.commandStack.tail } ∧
    1 ≤ ({ wOpenLoopBC with commandStack := wOpenLoopBC.commandStack.tail } :
        BridgeCommands).commandStack.length :=
  ⟨c5_unmatched_loop_errors.1 envAllTrue 5 wOpenLoopBC (by decide),
   c5_unmatched_loop_errors.2.1 envAllTrue 5 initBridgeCommands (by decide),
   c5_unmatched_loop_errors.2.2.1 initBridgeCommands (by decide),
   c5_unmatched_loop_errors.2.2.2.1 wOpenLoopBC (by decide),
   c5_unmatched_loop_errors.2.2.2.2 wOpenLoopBC _
     (c5_unmatched_loop_errors.2.2.2.1 wOpenLoopBC (by decide))⟩

/-- Claim C6: a single advance of an `ExecuteStep` (a tick whose top
collection has an `execute` node at the front) invokes the callback with the
orchestrator handle (ghost-recorded in `trace`/`callCount`), stores the raw
returned value into the shared result slot `returnValue`, leaves the stack in
place, and returns `ContinueAfter 0` when the value is non-zero and
`kEventLoopTimerDone` (halt) when it is zero. -/
theorem c6_execute_step_advance (env : Nat → Int) (bc : BridgeCommands)
    (t : Nat) (rest : List Nat) (cb : Nat) (cs : List BridgeCommand)
    (h1 : bc.commandStack = t :: rest) (h2 : bc.isRepeatObj t = false)
    (h3 : bc.queues t = BridgeCommand.execute cb :: cs) :
    (timerCallback env bc).1.returnValue = env bc.callCount ∧
    (timerCallback env bc).1.trace = bc.trace ++ [cb] ∧
    (timerCallback env bc).1.callCount = bc.callCount + 1 ∧
    (timerCallback env bc).1.commandStack = bc.commandStack ∧
    (timerCallback env bc).1.queues t = cs ∧
    (timerCallback env bc).2 =
      (if env bc.callCount = 0 then TimerResult.kEventLoopTimerDone
       else TimerResult.continueAfter 0) := by
  simp [timerCallback, h1, objectExecute, h2, BridgeCommandCollection.execute,
        h3, BridgeCommand.dispatch, BridgeCommandExecute.execute, updFn_self]

/-- Witness for C6 at the concrete program `[Execute(7), Execute(8)]` with
all callbacks returning 1. -/
theorem c6_execute_step_advance_witness :
    (timerCallback envAllTrue c3ProgBC).1.returnValue = envAllTrue c3ProgBC.callCount ∧
    (timerCallback envAllTrue c3ProgBC).1.trace = c3ProgBC.trace ++ [7] ∧
    (timerCallback envAllTrue c3ProgBC).1.callCount = c3ProgBC.callCount + 1 ∧
    (timerCallback envAllTrue c3ProgBC).1.commandStack = c3ProgBC.commandStack ∧
    (timerCallback envAllTrue c3ProgBC).1.queues 0 = [BridgeCommand.execute 8] ∧
    (timerCallback envAllTrue c3ProgBC).2 =
      (if envAllTrue c3ProgBC.callCount = 0 then TimerResult.kEventLoopTimerDone
       else TimerResult.continueAfter 0) :=
  c6_execute_step_advance envAllTrue c3ProgBC 0 [] 7 [BridgeCommand.execute 8]
    (by decide) (by decide) (by decide)

/-- Helper: a collection of `execute` nodes whose callbacks all return
non-zero executes them in queue (append) order, then pops itself and the run
halts on the emptied stack; the trace extends by exactly the queue order. -/
theorem collection_executes_in_fifo_order (env : Nat → Int)
    (henv : ∀ k, env k ≠ 0) :
    ∀ (ids : List Nat) (bc : BridgeCommands) (t : Nat),
      bc.commandStack = [t] → bc.isRepeatObj t = false →
      bc.queues t = ids.map BridgeCommand.execute →
      (runLoop env (ids.length + 2) bc).1.trace = bc.trace ++ ids := by
  intro ids
  induction ids with
  | nil =>
    intro bc t h1 h2 h3
    simp [runLoop, timerCallback, h1, objectExecute, h2,
          BridgeCommandCollection.execute, h3]
  | cons i is ih =>
    intro bc t h1 h2 h3
    have henv0 : ¬ env bc.callCount = 0 := henv _
    have hfuel : (i :: is).length + 2 = (is.length + 2) + 1 := by
      simp [List.length_cons]
    rw [hfuel]
    have hstep : runLoop env ((is.length + 2) + 1) bc =
        runLoop env (is.length + 2)
          { bc with
              queues := updFn bc.queues t (is.map BridgeCommand.execute)
              returnValue := env bc.callCount
              callCount := bc.callCount + 1
              trace := bc.trace ++ [i] } := by
      simp [runLoop, timerCallback, h1, objectExecute, h2,
            BridgeCommandCollection.execute, h3, BridgeCommand.dispatch,
            BridgeCommandExecute.execute, henv0]
    rw [hstep]
    have h := ih
      { bc with
          queues := updFn bc.queues t (is.map BridgeCommand.execute)
          returnValue := env bc.callCount
          callCount := bc.callCount + 1
          trace := bc.trace ++ [i] } t h1 h2 (by simp [updFn])
    rw [h]
    simp

/-- Claim C7: a single advance of a Collection whose pending queue is empty
pops the stack (removing that collection) and returns `ContinueAfter 0`;
otherwise it dequeues the front node, delegates to it and propagates that
node's result unchanged (the tick's value IS the dispatched node's value);
consequently append order equals execution order: a collection of `execute`
nodes runs its callbacks in exactly queue order (strict FIFO). -/
theorem c7_collection_advance :
    (∀ (env : Nat → Int) (bc : BridgeCommands) (t : Nat) (rest : List Nat),
        bc.commandStack = t :: rest → bc.isRepeatObj t = false →
        bc.queues t = [] →
        timerCallback env bc =
          ({ bc with commandStack := rest }, TimerResult.continueAfter 0)) ∧
    (∀ (env : Nat → Int) (bc : BridgeCommands) (t : Nat) (rest : List Nat)
        (c : BridgeCommand) (cs : List BridgeCommand),
        bc.commandStack = t :: rest → bc.isRepeatObj t = false →
        bc.queues t = c :: cs →
        timerCallback env bc =
          BridgeCommand.dispatch env c { bc with queues := updFn bc.queues t cs }) ∧
    (∀ (env : Nat → Int), (∀ k, env k ≠ 0) →
        ∀ (ids : List Nat) (bc : BridgeCommands) (t : Nat),
          bc.commandStack = [t] → bc.isRepeatObj t = false →
          bc.queues t = ids.map BridgeCommand.execute →
          (runLoop env (ids.length + 2) bc).1.trace = bc.trace ++ ids) := by
  refine ⟨?_, ?_, ?_⟩
  · intro env bc t rest h1 h2 h3
    simp [timerCallback, h1, objectExecute, h2, BridgeCommandCollection.execute, h3]
  · intro env bc t rest c cs h1 h2 h3
    simp [timerCallback, h1, objectExecute, h2, BridgeCommandCollection.execute, h3]
  · exact collection_executes_in_fifo_order

/-- Witness for C7: the empty root collection pops itself with
`ContinueAfter 0`; the two-step program `[Execute(7), Execute(8)]` delegates
its first tick to `Execute(7)` and, run to completion, produces the trace in
append order `[7, 8]`. -/
theorem c7_collection_advance_witness :
    timerCallback envAllTrue initBridgeCommands =
      ({ initBridgeCommands with commandStack := [] }, TimerResult.continueAfter 0) ∧
    timerCallback envAllTrue c3ProgBC =
      BridgeCommand.dispatch envAllTrue (BridgeCommand.execute 7)
        { c3ProgBC with
            queues := updFn c3ProgBC.queues 0 [BridgeCommand.execute 8] } ∧
    (runLoop envAllTrue 4 c3ProgBC).1.trace = c3ProgBC.trace ++ [7, 8] := by
  refine ⟨c7_collection_advance.1 envAllTrue initBridgeCommands 0 [] (by decide)
      (by decide) (by decide),
    c7_collection_advance.2.1 envAllTrue c3ProgBC 0 [] (BridgeCommand.execute 7)
      [BridgeCommand.execute 8] (by decide) (by decide) (by decide), ?_⟩
  have h := c7_collection_advance.2.2 envAllTrue (fun k => by simp [envAllTrue])
    [7, 8] c3ProgBC 0 (by decide) (by decide) (by decide)
  exact h

/-- Helper: a tick on an empty command stack reports `kEventLoopTimerDone`. -/
theorem timerCallback_empty_stack (env : Nat → Int) (bc : BridgeCommands)
    (h : bc.commandStack = []) :
    timerCallback env bc = (bc, TimerResult.kEventLoopTimerDone) := by
  simp [timerCallback, h]

/-- Helper: a `continueAfter` tick result re-arms the timer. -/
theorem runLoop_continueAfter (env : Nat → Int) (fuel : Nat)
    (bc bc' : BridgeCommands) (d : Nat)
    (h : timerCallback env bc = (bc', TimerResult.continueAfter d)) :
    runLoop env (fuel + 1) bc = runLoop env fuel bc' := by
  simp [runLoop, h]

/-- Helper: a `kEventLoopTimerDone` tick result unregisters the timer. -/
theorem runLoop_timerDone (env : Nat → Int) (fuel : Nat)
    (bc bc' : BridgeCommands)
    (h : timerCallback env bc = (bc', TimerResult.kEventLoopTimerDone)) :
    runLoop env (fuel + 1) bc = (bc', true) := by
  simp [runLoop, h]

/-- Claim C8: the driver registers its recurring timer callback with initial
delay 0; on each firing, an empty command stack yields `kEventLoopTimerDone`
(halt reported to the loop), and otherwise the callback delegates to the top
frame's advance and hands its result to the loop: `continueAfter d` re-arms
the timer (the loop fires the callback again), `kEventLoopTimerDone`
unregisters it (the run ends with whatever state the last step left); once the
stack is empty nothing further ever happens, so emptying the stack is the only
natural termination of the run. -/
theorem c8_driver_translates_step_results :
    getTimerEventInitialDelay = 0 ∧
    (∀ (env : Nat → Int) (bc : BridgeCommands), bc.commandStack = [] →
        timerCallback env bc = (bc, TimerResult.kEventLoopTimerDone)) ∧
    (∀ (env : Nat → Int) (bc : BridgeCommands) (t : Nat) (rest : List Nat),
        bc.commandStack = t :: rest →
        timerCallback env bc = objectExecute env t bc) ∧
    (∀ (env : Nat → Int) (fuel : Nat) (bc bc' : BridgeCommands) (d : Nat),
        timerCallback env bc = (bc', TimerResult.continueAfter d) →
        runLoop env (fuel + 1) bc = runLoop env fuel bc') ∧
    (∀ (env : Nat → Int) (fuel : Nat) (bc bc' : BridgeCommands),
        timerCallback env bc = (bc', TimerResult.kEventLoopTimerDone) →
        runLoop env (fuel + 1) bc = (bc', true)) ∧
    (∀ (env : Nat → Int) (fuel : Nat) (bc : BridgeCommands),
        bc.commandStack = [] → runLoop env (fuel + 1) bc = (bc, true)) := by
  refine ⟨rfl, ?_, ?_, ?_, ?_, ?_⟩
  · intro env bc h
    simp [timerCallback, h]
  · intro env bc t rest h
    simp [timerCallback, h]
  · intro env fuel bc bc' d h
    simp [runLoop, h]
  · intro env fuel bc bc' h
    simp [runLoop, h]
  · intro env fuel bc h
    simp [runLoop, timerCallback, h]

/-- Witness for C8 at concrete inputs: the empty-stack state halts and stays
halted; the tick of `[Execute(7), Execute(8)]` delegates to the top frame and
its `continueAfter` re-arms; the exhausted run of the empty root halts. -/
theorem c8_driver_translates_step_results_witness :
    getTimerEventInitialDelay = 0 ∧
    timerCallback envAllTrue wEmptyStackBC = (wEmptyStackBC, TimerResult.kEventLoopTimerDone) ∧
    timerCallback envAllTrue c3ProgBC = objectExecute envAllTrue 0 c3ProgBC ∧
    runLoop envAllTrue (3 + 1) c3ProgBC =
      runLoop envAllTrue 3 (timerCallback envAllTrue c3ProgBC).1 ∧
    runLoop envAllTrue (0 + 1) wEmptyStackBC = (wEmptyStackBC, true) ∧
    runLoop envAllTrue (7 + 1) wEmptyStackBC = (wEmptyStackBC, true) :=
  ⟨c8_driver_translates_step_results.1,
   c8_driver_translates_step_results.2.1 envAllTrue wEmptyStackBC (by decide),
   c8_driver_translates_step_results.2.2.1 envAllTrue c3ProgBC 0 [] (by decide),
   c8_driver_translates_step_results.2.2.2.1 envAllTrue 3 c3ProgBC
     (timerCallback envAllTrue c3ProgBC).1 0 rfl,
   c8_driver_translates_step_results.2.2.2.2.1 envAllTrue 0 wEmptyStackBC
     wEmptyStackBC rfl,
   c8_driver_translates_step_results.2.2.2.2.2 envAllTrue 7 wEmptyStackBC (by decide)⟩

/-- Claim C9: a single advance of a `WaitExitStep` registers a one-shot
handler on the lifecycle collaborator (the pending-handler count rises by
one), leaves the stack in place, and immediately returns
`kEventLoopTimerDone` (halt); firing a pending handler consumes it and
re-invokes the scheduler's tick-resumption entry point `queue_next_command`
on this orchestrator. -/
theorem c9_wait_exit_advance :
    (∀ (env : Nat → Int) (bc : BridgeCommands) (t : Nat) (rest : List Nat)
        (cs : List BridgeCommand),
        bc.commandStack = t :: rest → bc.isRepeatObj t = false →
        bc.queues t = BridgeCommand.waitExit :: cs →
        (timerCallback env bc).1.exitHandlers = bc.exitHandlers + 1 ∧
        (timerCallback env bc).1.queues t = cs ∧
        (timerCallback env bc).1.commandStack = bc.commandStack ∧
        (timerCallback env bc).2 = TimerResult.kEventLoopTimerDone) ∧
    (∀ (env : Nat → Int) (fuel : Nat) (bc : BridgeCommands),
        0 < bc.exitHandlers →
        ioloopFireExit env fuel bc =
          queue_next_command env fuel
            { bc with exitHandlers := bc.exitHandlers - 1 }) := by
  refine ⟨?_, ?_⟩
  · intro env bc t rest cs h1 h2 h3
    simp [timerCallback, h1, objectExecute, h2, BridgeCommandCollection.execute,
          h3, BridgeCommand.dispatch, BridgeCommandWaitExit.execute, updFn_self]
  · intro env fuel bc h
    simp [ioloopFireExit, Nat.pos_iff_ne_zero.mp h]

/-- Witness for C9 at the concrete program `[WaitExit, Execute(9)]`. -/
theorem c9_wait_exit_advance_witness :
    ((timerCallback envAllTrue wWaitBC).1.exitHandlers = wWaitBC.exitHandlers + 1 ∧
      (timerCallback envAllTrue wWaitBC).1.queues 0 = [BridgeCommand.execute 9] ∧
      (timerCallback envAllTrue wWaitBC).1.commandStack = wWaitBC.commandStack ∧
      (timerCallback envAllTrue wWaitBC).2 = TimerResult.kEventLoopTimerDone) ∧
    ioloopFireExit envAllTrue 5 (timerCallback envAllTrue wWaitBC).1 =
      queue_next_command envAllTrue 5
        { (timerCallback envAllTrue wWaitBC).1 with
            exitHandlers := (timerCallback envAllTrue wWaitBC).1.exitHandlers - 1 } :=
  ⟨c9_wait_exit_advance.1 envAllTrue wWaitBC 0 [] [BridgeCommand.execute 9]
      (by decide) (by decide) (by decide),
   c9_wait_exit_advance.2 envAllTrue 5 (timerCallback envAllTrue wWaitBC).1
      (by decide)⟩

/-- Claim C10: when a repeat node authored with count ≤ 0 is reached (dequeued
from the collection at the top of the stack and advanced), its advance pops
the frame currently on top of the stack — the enclosing collection, since the
dequeued repeat node is not itself on the execution stack — while still
returning `ContinueAfter(perIterationDelay)`; hence every command remaining in
the enclosing scope is discarded unexecuted, and when the enclosing scope is
the root collection the stack empties and the whole run terminates with no
further callback invocations. -/
theorem c10_nonpositive_count_pops_enclosing_scope :
    (∀ (env : Nat → Int) (bc : BridgeCommands) (t : Nat) (rest : List Nat)
        (r : Nat) (cs : List BridgeCommand),
        bc.commandStack = t :: rest → bc.isRepeatObj t = false →
        bc.queues t = BridgeCommand.repRef r :: cs → bc.repeatTimes r ≤ 0 →
        (timerCallback env bc).1.commandStack = rest ∧
        (timerCallback env bc).2 =
          TimerResult.continueAfter (bc.repeatDelays r)) ∧
    (∀ (env : Nat → Int) (bc : BridgeCommands) (t : Nat) (r : Nat)
        (cs : List BridgeCommand) (fuel : Nat),
        bc.commandStack = [t] → bc.isRepeatObj t = false →
        bc.queues t = BridgeCommand.repRef r :: cs → bc.repeatTimes r ≤ 0 →
        (runLoop env (fuel + 2) bc).1.trace = bc.trace ∧
        (runLoop env (fuel + 2) bc).2 = true ∧
        (runLoop env (fuel + 2) bc).1.commandStack = []) := by
  have step : ∀ (env : Nat → Int) (bc : BridgeCommands) (t : Nat)
      (rest : List Nat) (r : Nat) (cs : List BridgeCommand),
      bc.commandStack = t :: rest → bc.isRepeatObj t = false →
      bc.queues t = BridgeCommand.repRef r :: cs → bc.repeatTimes r ≤ 0 →
      timerCallback env bc =
        ({ bc with
            queues := updFn bc.queues t cs
            repeatTimes := updFn bc.repeatTimes r (bc.repeatTimes r - 1)
            commandStack := rest },
         TimerResult.continueAfter (bc.repeatDelays r)) := by
    intro env bc t rest r cs h1 h2 h3 h4
    simp [timerCallback, h1, objectExecute, h2, BridgeCommandCollection.execute,
          h3, BridgeCommand.dispatch, BridgeCommandRepeat.execute, h4]
  refine ⟨?_, ?_⟩
  · intro env bc t rest r cs h1 h2 h3 h4
    rw [step env bc t rest r cs h1 h2 h3 h4]
    exact ⟨rfl, rfl⟩
  · intro env bc t r cs fuel h1 h2 h3 h4
    have h5 := step env bc t [] r cs h1 h2 h3 h4
    have hloop : runLoop env (fuel + 2) bc =
        ({ bc with
            queues := updFn bc.queues t cs
            repeatTimes := updFn bc.repeatTimes r (bc.repeatTimes r - 1)
            commandStack := [] }, true) := by
      show runLoop env (fuel + 1 + 1) bc = _
      rw [runLoop_continueAfter env (fuel + 1) bc _ _ h5]
      exact runLoop_timerDone env fuel _ _ (timerCallback_empty_stack env _ rfl)
    rw [hloop]
    exact ⟨rfl, rfl, rfl⟩

/-- Witness for C10 at the concrete state whose root holds
`[repRef 1 (count 0), Execute(5)]`. -/
theorem c10_nonpositive_count_pops_enclosing_scope_witness :
    ((timerCallback envAllTrue (wRepeatBC 0)).1.commandStack = [] ∧
      (timerCallback envAllTrue (wRepeatBC 0)).2 =
        TimerResult.continueAfter ((wRepeatBC 0).repeatDelays 1)) ∧
    ((runLoop envAllTrue (3 + 2) (wRepeatBC 0)).1.trace = (wRepeatBC 0).trace ∧
      (runLoop envAllTrue (3 + 2) (wRepeatBC 0)).2 = true ∧
      (runLoop envAllTrue (3 + 2) (wRepeatBC 0)).1.commandStack = []) :=
  ⟨c10_nonpositive_count_pops_enclosing_scope.1 envAllTrue (wRepeatBC 0) 0 [] 1
      [BridgeCommand.execute 5] (by decide) (by decide) (by decide) (by decide),
   c10_nonpositive_count_pops_enclosing_scope.2 envAllTrue (wRepeatBC 0) 0 1
      [BridgeCommand.execute 5] 3 (by decide) (by decide) (by decide) (by decide)⟩

/-- Claim C4 (amended): a single advance of a repeat node (dequeued from the
collection at the top of the stack) compares `remainingIterations` using the
pre-decrement value and decrements it; if that value is not greater than zero
the stack is popped — removing the frame on top, which is the enclosing
collection, since the dequeued repeat node is not itself on the stack —
otherwise a freshly allocated collection holding a copy of the repeat's
`bodyCommands` is pushed onto the stack; in both branches the result is
`ContinueAfter(perIterationDelay)`. -/
theorem c4_repeat_advance_amended (env : Nat → Int) (bc : BridgeCommands)
    (t : Nat) (rest : List Nat) (r : Nat) (cs : List BridgeCommand)
    (h1 : bc.commandStack = t :: rest) (h2 : bc.isRepeatObj t = false)
    (h3 : bc.queues t = BridgeCommand.repRef r :: cs)
    (h4 : bc.isRepeatObj r = true) :
    (timerCallback env bc).1.repeatTimes r = bc.repeatTimes r - 1 ∧
    (bc.repeatTimes r ≤ 0 → (timerCallback env bc).1.commandStack = rest) ∧
    (0 < bc.repeatTimes r →
      (timerCallback env bc).1.commandStack = bc.nextObj :: t :: rest ∧
      (timerCallback env bc).1.queues bc.nextObj = bc.queues r ∧
      (timerCallback env bc).1.nextObj = bc.nextObj + 1) ∧
    (timerCallback env bc).2 = TimerResult.continueAfter (bc.repeatDelays r) := by
  have hrt : r ≠ t := by
    intro h
    rw [h, h2] at h4
    exact Bool.false_ne_true h4
  by_cases h0 : bc.repeatTimes r ≤ 0
  · simp [timerCallback, h1, objectExecute, h2, BridgeCommandCollection.execute,
          h3, BridgeCommand.dispatch, BridgeCommandRepeat.execute, h0, updFn_self]
  · simp [timerCallback, h1, objectExecute, h2, BridgeCommandCollection.execute,
          h3, BridgeCommand.dispatch, BridgeCommandRepeat.execute, h0, updFn_self]
    intro _
    exact updFn_ne _ _ hrt

/-- Witness for C4 at the concrete states `wRepeatBC 0` (count 0: pop branch)
and `wRepeatBC 2` (count 2: push branch). -/
theorem c4_repeat_advance_amended_witness :
    ((timerCallback envAllTrue (wRepeatBC 0)).1.repeatTimes 1 =
        (wRepeatBC 0).repeatTimes 1 - 1 ∧
      ((wRepeatBC 0).repeatTimes 1 ≤ 0 →
        (timerCallback envAllTrue (wRepeatBC 0)).1.commandStack = []) ∧
      (0 < (wRepeatBC 0).repeatTimes 1 →
        (timerCallback envAllTrue (wRepeatBC 0)).1.commandStack =
            (wRepeatBC 0).nextObj :: 0 :: [] ∧
        (timerCallback envAllTrue (wRepeatBC 0)).1.queues (wRepeatBC 0).nextObj =
            (wRepeatBC 0).queues 1 ∧
        (timerCallback envAllTrue (wRepeatBC 0)).1.nextObj = (wRepeatBC 0).nextObj + 1) ∧
      (timerCallback envAllTrue (wRepeatBC 0)).2 =
        TimerResult.continueAfter ((wRepeatBC 0).repeatDelays 1)) ∧
    ((timerCallback envAllTrue (wRepeatBC 2)).1.repeatTimes 1 =
        (wRepeatBC 2).repeatTimes 1 - 1 ∧
      ((wRepeatBC 2).repeatTimes 1 ≤ 0 →
        (timerCallback envAllTrue (wRepeatBC 2)).1.commandStack = []) ∧
      (0 < (wRepeatBC 2).repeatTimes 1 →
        (timerCallback envAllTrue (wRepeatBC 2)).1.commandStack =
            (wRepeatBC 2).nextObj :: 0 :: [] ∧
        (timerCallback envAllTrue (wRepeatBC 2)).1.queues (wRepeatBC 2).nextObj =
            (wRepeatBC 2).queues 1 ∧
        (timerCallback envAllTrue (wRepeatBC 2)).1.nextObj = (wRepeatBC 2).nextObj + 1) ∧
      (timerCallback envAllTrue (wRepeatBC 2)).2 =
        TimerResult.continueAfter ((wRepeatBC 2).repeatDelays 1)) :=
  ⟨c4_repeat_advance_amended envAllTrue (wRepeatBC 0) 0 [] 1
      [BridgeCommand.execute 5] (by decide) (by decide) (by decide) (by decide),
   c4_repeat_advance_amended envAllTrue (wRepeatBC 2) 0 [] 1
      [BridgeCommand.execute 5] (by decide) (by decide) (by decide) (by decide)⟩

/-- Claim C3: if an `ExecuteStep`'s callback returns zero, the run halts
immediately: the very tick that invoked it is the run's last, for any
remaining fuel, so no step queued after it at any nesting level and no
remaining iteration of any enclosing repeat ever executes (the final state is
exactly the one-step state); conversely, a tick that reports
`kEventLoopTimerDone` with a non-empty stack and no new `WaitExit`
registration (i.e. a step genuinely terminating the whole run early, not a
suspension and not stack exhaustion) can only be an `ExecuteStep` whose
callback returned zero — the sole early-termination mechanism — and it is a
normal outcome recorded in the shared result slot, not an error. -/
theorem c3_execute_zero_halts_run :
    (∀ (env : Nat → Int) (bc : BridgeCommands) (t : Nat) (rest : List Nat)
        (cb : Nat) (cs : List BridgeCommand) (fuel : Nat),
        bc.commandStack = t :: rest → bc.isRepeatObj t = false →
        bc.queues t = BridgeCommand.execute cb :: cs → env bc.callCount = 0 →
        runLoop env (fuel + 1) bc =
          ({ bc with
              queues := updFn bc.queues t cs
              returnValue := 0
              callCount := bc.callCount + 1
              trace := bc.trace ++ [cb] }, true)) ∧
    (∀ (env : Nat → Int) (bc bc' : BridgeCommands),
        timerCallback env bc = (bc', TimerResult.kEventLoopTimerDone) →
        bc.commandStack ≠ [] → bc'.exitHandlers = bc.exitHandlers →
        ∃ t rest cb cs, bc.commandStack = t :: rest ∧
          bc.isRepeatObj t = false ∧
          bc.queues t = BridgeCommand.execute cb :: cs ∧
          env bc.callCount = 0 ∧ bc'.returnValue = 0) := by
  refine ⟨?_, ?_⟩
  · intro env bc t rest cb cs fuel h1 h2 h3 h4
    simp [runLoop, timerCallback, h1, objectExecute, h2,
          BridgeCommandCollection.execute, h3, BridgeCommand.dispatch,
          BridgeCommandExecute.execute, h4]
  · intro env bc bc' htc hne hexit
    rcases hstack : bc.commandStack with _ | ⟨t, rest⟩
    · exact absurd hstack hne
    simp only [timerCallback, hstack] at htc
    rcases hrep : bc.isRepeatObj t with _ | _
    · rcases hq : bc.queues t with _ | ⟨c, cs⟩
      · simp [objectExecute, hrep, BridgeCommandCollection.execute, hq] at htc
      · rcases c with cb | usecs | r | _
        · by_cases h0 : env bc.callCount = 0
          · refine ⟨t, rest, cb, cs, rfl, hrep, hq, h0, ?_⟩
            simp [objectExecute, hrep, BridgeCommandCollection.execute, hq,
                  BridgeCommand.dispatch, BridgeCommandExecute.execute, h0] at htc
            rw [← htc]
          · simp [objectExecute, hrep, BridgeCommandCollection.execute, hq,
                  BridgeCommand.dispatch, BridgeCommandExecute.execute, h0] at htc
        · simp [objectExecute, hrep, BridgeCommandCollection.execute, hq,
                BridgeCommand.dispatch, BridgeCommandDelay.execute] at htc
        · simp only [objectExecute, hrep, Bool.false_eq_true, if_false,
                BridgeCommandCollection.execute, hq, BridgeCommand.dispatch,
                BridgeCommandRepeat.execute] at htc
          split at htc <;> simp at htc
        · simp [objectExecute, hrep, BridgeCommandCollection.execute, hq,
                BridgeCommand.dispatch, BridgeCommandWaitExit.execute] at htc
          rw [← htc] at hexit
          simp at hexit
    · simp only [objectExecute, hrep, if_true, BridgeCommandRepeat.execute] at htc
      split at htc <;> simp at htc

/-- Witness for C3 at the concrete program `[Execute(7), Execute(8)]` with
every callback returning 0: the run halts after invoking only callback 7, and
the halting tick is characterised as an `ExecuteStep` returning zero. -/
theorem c3_execute_zero_halts_run_witness :
    runLoop envAllZero (4 + 1) c3ProgBC =
      ({ c3ProgBC with
          queues := updFn c3ProgBC.queues 0 [BridgeCommand.execute 8]
          returnValue := 0
          callCount := c3ProgBC.callCount + 1
          trace := c3ProgBC.trace ++ [7] }, true) ∧
    (∃ t rest cb cs, c3ProgBC.commandStack = t :: rest ∧
      c3ProgBC.isRepeatObj t = false ∧
      c3ProgBC.queues t = BridgeCommand.execute cb :: cs ∧
      envAllZero c3ProgBC.callCount = 0 ∧
      (timerCallback envAllZero c3ProgBC).1.returnValue = 0) :=
  ⟨c3_execute_zero_halts_run.1 envAllZero c3ProgBC 0 [] 7
      [BridgeCommand.execute 8] 4 (by decide) (by decide) (by decide) (by decide),
   c3_execute_zero_halts_run.2 envAllZero c3ProgBC
      (timerCallback envAllZero c3ProgBC).1 rfl (by decide) (by decide)⟩

/-- Helper: one timer tick preserves well-formedness of the stack (only
plain, allocated collection objects on it), never reuses an allocated id, and
never mutates the queue or the dynamic type of any allocated repeat object:
at runtime a repeat's queue is only ever read (copied into a freshly
allocated plain collection), never written. -/
theorem timerCallback_preserves_repeat_templates (env : Nat → Int)
    (bc : BridgeCommands) (hWF : NoRepeatOnStack bc) :
    NoRepeatOnStack (timerCallback env bc).1 ∧
    bc.nextObj ≤ (timerCallback env bc).1.nextObj ∧
    (∀ r, bc.isRepeatObj r = true → r < bc.nextObj →
      (timerCallback env bc).1.isRepeatObj r = true ∧
      (timerCallback env bc).1.queues r = bc.queues r) := by
  rcases hstack : bc.commandStack with _ | ⟨t, rest⟩
  · have htc : timerCallback env bc = (bc, TimerResult.kEventLoopTimerDone) := by
      simp [timerCallback, hstack]
    rw [htc]
    exact ⟨hWF, le_refl _, fun r hr _ => ⟨hr, rfl⟩⟩
  · have ht := hWF t (by rw [hstack]; exact List.mem_cons_self t rest)
    have ht1 : bc.isRepeatObj t = false := ht.1
    have hneq : ∀ r, bc.isRepeatObj r = true → r ≠ t := by
      intro r hr h
      rw [h, ht1] at hr
      exact Bool.false_ne_true hr
    rcases hq : bc.queues t with _ | ⟨c, cs⟩
    · have htc : timerCallback env bc =
          ({ bc with commandStack := rest }, TimerResult.continueAfter 0) := by
        simp [timerCallback, hstack, objectExecute, ht1,
              BridgeCommandCollection.execute, hq]
      rw [htc]
      refine ⟨?_, le_refl _, fun r hr _ => ⟨hr, rfl⟩⟩
      intro u hu
      exact hWF u (by rw [hstack]; exact List.mem_cons_of_mem t hu)
    · rcases c with cb | usecs | r' | _
      · have htc : timerCallback env bc =
            ({ bc with
                queues := updFn bc.queues t cs
                returnValue := env bc.callCount
                callCount := bc.callCount + 1
                trace := bc.trace ++ [cb] },
             if env bc.callCount = 0 then TimerResult.kEventLoopTimerDone
             else TimerResult.continueAfter 0) := by
          simp [timerCallback, hstack, objectExecute, ht1,
                BridgeCommandCollection.execute, hq, BridgeCommand.dispatch,
                BridgeCommandExecute.execute]
        rw [htc]
        refine ⟨?_, le_refl _, fun r hr hlt => ⟨hr, updFn_ne _ _ (hneq r hr)⟩⟩
        intro u hu
        exact hWF u hu
      · have htc : timerCallback env bc =
            ({ bc with queues := updFn bc.queues t cs },
             TimerResult.continueAfter usecs) := by
          simp [timerCallback, hstack, objectExecute, ht1,
                BridgeCommandCollection.execute, hq, BridgeCommand.dispatch,
                BridgeCommandDelay.execute]
        rw [htc]
        refine ⟨?_, le_refl _, fun r hr hlt => ⟨hr, updFn_ne _ _ (hneq r hr)⟩⟩
        intro u hu
        exact hWF u hu
      · by_cases h0 : bc.repeatTimes r' ≤ 0
        · have htc : timerCallback env bc =
              ({ bc with
                  queues := updFn bc.queues t cs
                  repeatTimes := updFn bc.repeatTimes r' (bc.repeatTimes r' - 1)
                  commandStack := rest },
               TimerResult.continueAfter (bc.repeatDelays r')) := by
            simp [timerCallback, hstack, objectExecute, ht1,
                  BridgeCommandCollection.execute, hq, BridgeCommand.dispatch,
                  BridgeCommandRepeat.execute, h0]
          rw [htc]
          refine ⟨?_, le_refl _, fun r hr hlt => ⟨hr, updFn_ne _ _ (hneq r hr)⟩⟩
          intro u hu
          exact hWF u (by rw [hstack]; exact List.mem_cons_of_mem t hu)
        · have htc : timerCallback env bc =
              ({ bc with
                  queues := updFn (updFn bc.queues t cs) bc.nextObj
                    (updFn bc.queues t cs r')
                  isRepeatObj := updFn bc.isRepeatObj bc.nextObj false
                  repeatTimes := updFn bc.repeatTimes r' (bc.repeatTimes r' - 1)
                  commandStack := bc.nextObj :: t :: rest
                  nextObj := bc.nextObj + 1 },
               TimerResult.continueAfter (bc.repeatDelays r')) := by
            simp [timerCallback, hstack, objectExecute, ht1,
                  BridgeCommandCollection.execute, hq, BridgeCommand.dispatch,
                  BridgeCommandRepeat.execute, h0]
          rw [htc]
          refine ⟨?_, Nat.le_succ _, ?_⟩
          · intro u hu
            rcases List.mem_cons.mp hu with rfl | hu'
            · exact ⟨updFn_self _ _ _, Nat.lt_succ_self _⟩
            · have hold := hWF u (by rw [hstack]; exact hu')
              refine ⟨?_, Nat.lt_succ_of_lt hold.2⟩
              show updFn bc.isRepeatObj bc.nextObj false u = false
              rw [updFn_ne _ _ (Nat.ne_of_lt hold.2)]
              exact hold.1
          · intro r hr hlt
            refine ⟨?_, ?_⟩
            · show updFn bc.isRepeatObj bc.nextObj false r = true
              rw [updFn_ne _ _ (Nat.ne_of_lt hlt)]
              exact hr
            · show updFn (updFn bc.queues t cs) bc.nextObj
                  (updFn bc.queues t cs r') r = bc.queues r
              rw [updFn_ne _ _ (Nat.ne_of_lt hlt), updFn_ne _ _ (hneq r hr)]
      · have htc : timerCallback env bc =
            ({ bc with
                queues := updFn bc.queues t cs
                exitHandlers := bc.exitHandlers + 1 },
             TimerResult.kEventLoopTimerDone) := by
          simp [timerCallback, hstack, objectExecute, ht1,
                BridgeCommandCollection.execute, hq, BridgeCommand.dispatch,
                BridgeCommandWaitExit.execute]
        rw [htc]
        refine ⟨?_, le_refl _, fun r hr hlt => ⟨hr, updFn_ne _ _ (hneq r hr)⟩⟩
        intro u hu
        exact hWF u hu

/-- Helper: a whole run never mutates the queue (or the dynamic type) of any
allocated repeat object, provided the stack holds only plain allocated
collections — the situation after any successful `start_bridge`. -/
theorem runLoop_preserves_repeat_templates (env : Nat → Int) :
    ∀ (fuel : Nat) (bc : BridgeCommands), NoRepeatOnStack bc →
      ∀ r, bc.isRepeatObj r = true → r < bc.nextObj →
        (runLoop env fuel bc).1.queues r = bc.queues r ∧
        (runLoop env fuel bc).1.isRepeatObj r = true := by
  intro fuel
  induction fuel with
  | zero =>
    intro bc _ r hr _
    exact ⟨rfl, hr⟩
  | succ n ih =>
    intro bc hWF r hr hlt
    obtain ⟨hWF', hmono, hpres⟩ := timerCallback_preserves_repeat_templates env bc hWF
    obtain ⟨hr', hq'⟩ := hpres r hr hlt
    rcases htc : timerCallback env bc with ⟨bc', res⟩
    rw [htc] at hWF' hmono hr' hq'
    cases res with
    | kEventLoopTimerDone =>
      have hdone := runLoop_timerDone env n bc bc' htc
      rw [hdone]
      exact ⟨hq', hr'⟩
    | continueAfter d =>
      have hcont := runLoop_continueAfter env n bc bc' d htc
      rw [hcont]
      have hres := ih bc' hWF' r hr' (Nat.lt_of_lt_of_le hlt hmono)
      exact ⟨hres.1.trans hq', hres.2⟩

/-- Claim C2 (amended): once a repeat block is closed, the repeat object's
`bodyCommands` queue (its `m_command_queue`) is never mutated again by any
run whose stack holds only plain allocated collections, and each iteration
begins by pushing a freshly allocated collection whose queue is a copy of the
body template; however, the copy is a queue of shared pointers: it shares the
command objects with the template, so mutable per-node state — the
remaining-iteration counter of a nested repeat inside the body — is shared
between the running iteration and the template and its mutation leaks back
into the frame's template (see the counterexample). -/
theorem c2_amended_template_queue_immutable_nodes_shared :
    (∀ (env : Nat → Int) (fuel : Nat) (bc : BridgeCommands) (r : Nat),
        NoRepeatOnStack bc → bc.isRepeatObj r = true → r < bc.nextObj →
        (runLoop env fuel bc).1.queues r = bc.queues r) ∧
    (∀ (env : Nat → Int) (bc : BridgeCommands) (t : Nat) (rest : List Nat)
        (r : Nat) (cs : List BridgeCommand),
        bc.commandStack = t :: rest → bc.isRepeatObj t = false →
        bc.queues t = BridgeCommand.repRef r :: cs → bc.isRepeatObj r = true →
        0 < bc.repeatTimes r →
        (timerCallback env bc).1.commandStack = bc.nextObj :: t :: rest ∧
        (timerCallback env bc).1.isRepeatObj bc.nextObj = false ∧
        (timerCallback env bc).1.queues bc.nextObj = bc.queues r) := by
  refine ⟨?_, ?_⟩
  · intro env fuel bc r hWF hr hlt
    exact (runLoop_preserves_repeat_templates env fuel bc hWF r hr hlt).1
  · intro env bc t rest r cs h1 h2 h3 h4 h5
    have hrt : r ≠ t := by
      intro h
      rw [h, h2] at h4
      exact Bool.false_ne_true h4
    have h0 : ¬ bc.repeatTimes r ≤ 0 := by omega
    have htc : timerCallback env bc =
        ({ bc with
            queues := updFn (updFn bc.queues t cs) bc.nextObj
              (updFn bc.queues t cs r)
            isRepeatObj := updFn bc.isRepeatObj bc.nextObj false
            repeatTimes := updFn bc.repeatTimes r (bc.repeatTimes r - 1)
            commandStack := bc.nextObj :: t :: rest
            nextObj := bc.nextObj + 1 },
         TimerResult.continueAfter (bc.repeatDelays r)) := by
      simp [timerCallback, h1, objectExecute, h2,
            BridgeCommandCollection.execute, h3, BridgeCommand.dispatch,
            BridgeCommandRepeat.execute, h0]
    rw [htc]
    refine ⟨rfl, updFn_self _ _ _, ?_⟩
    show updFn (updFn bc.queues t cs) bc.nextObj
        (updFn bc.queues t cs r) bc.nextObj = bc.queues r
    rw [updFn_self, updFn_ne _ _ hrt]

/-- Witness for C2 (amended) at the concrete state `wRepeatBC 2` (root
`[repRef 1, Execute(5)]`, repeat object 1 with count 2 and body
`[Delay(3)]`). -/
theorem c2_amended_template_queue_immutable_nodes_shared_witness :
    (runLoop envAllTrue 10 (wRepeatBC 2)).1.queues 1 = (wRepeatBC 2).queues 1 ∧
    ((timerCallback envAllTrue (wRepeatBC 2)).1.commandStack =
        (wRepeatBC 2).nextObj :: 0 :: [] ∧
      (timerCallback envAllTrue (wRepeatBC 2)).1.isRepeatObj (wRepeatBC 2).nextObj = false ∧
      (timerCallback envAllTrue (wRepeatBC 2)).1.queues (wRepeatBC 2).nextObj =
        (wRepeatBC 2).queues 1) :=
  ⟨c2_amended_template_queue_immutable_nodes_shared.1 envAllTrue 10 (wRepeatBC 2) 1
      (by intro u hu; simp only [wRepeatBC] at hu ⊢; simp at hu; subst hu; exact ⟨by decide, by decide⟩)
      (by decide) (by decide),
   c2_amended_template_queue_immutable_nodes_shared.2 envAllTrue (wRepeatBC 2) 0 [] 1
      [BridgeCommand.execute 5] (by decide) (by decide) (by decide) (by decide) (by decide)⟩
